import Mathlib

/-!
Shallow embedding of the core of the finvarta-analysis repository:

* `src/cache/search_cache.py` — company-name normalization and the
  TTL search cache (`normalize_company_name`, `SearchCache.get_cached_result`,
  `SearchCache.set_cached_result`, `SearchCache.get_all_cached_queries`,
  `SearchCache._save_cache`, `SearchCache._is_cache_valid`).
* `src/html_extractor.py` — the column-selection and row-emission logic of
  `extract_financial_data` (quarters policy, ratios/years policy with TTM
  detection, aggressive-mode empty-cell dropping).
* `src/analysis_service.py` — the context-budget classification performed in
  `perform_analysis` (`total_tokens > max_context`,
  `total_tokens > max_context * 0.9`).

Python strings are modelled as lists of Unicode code points (`List Nat`);
`str.strip`, `str.upper` and `str.replace` are embedded below.  Wall-clock
time (`datetime.now()`) is passed explicitly as an integer `now`; a cache
timestamp is the integer `now` at which the entry was written, and the TTL
comparison `age < timedelta(hours=self.ttl_hours)` becomes
`now - timestamp < ttl` in the same time unit.  Python dicts are modelled as
association lists with first-occurrence lookup, update-in-place-or-append
assignment, and key deletion — the semantics of `d[k]`, `d[k] = v`,
`del d[k]` on dicts, whose keys are unique.
-/

/-- Code points of a string literal, used to write concrete Python strings. -/
def codes (s : String) : List Nat :=
  s.data.map Char.toNat

/-- A Python string as a list of code points. -/
abbrev PyStr := List Nat

/-- Python `str.strip()` whitespace test, on the ASCII whitespace characters
(space, tab, LF, CR, VT, FF). -/
def isPySpace (n : Nat) : Bool :=
  n == 32 || n == 9 || n == 10 || n == 13 || n == 11 || n == 12

/-- Python `s.strip()`: drop whitespace from both ends. -/
def pyStrip (s : PyStr) : PyStr :=
  ((s.dropWhile isPySpace).reverse.dropWhile isPySpace).reverse

/-- Python `str.upper()` on one ASCII code point. -/
def upperCode (n : Nat) : Nat :=
  if 97 ≤ n ∧ n ≤ 122 then n - 32 else n

/-- Python `s.upper()`. -/
def pyUpper (s : PyStr) : PyStr :=
  s.map upperCode

/-- Worker for `s.replace(old, "")`: scan left to right; on a match consume
the whole occurrence (the matched head now, the remaining `old.length - 1`
code points via the skip counter) without rescanning inside it, exactly as
Python's `str.replace` does. -/
def replaceGo (old : PyStr) : Nat → PyStr → PyStr
  | _, [] => []
  | k + 1, _ :: s => replaceGo old k s
  | 0, c :: s =>
    if old.isPrefixOf (c :: s) then replaceGo old (old.length - 1) s
    else c :: replaceGo old 0 s

/-- Python `s.replace(old, "")` (for non-empty `old`, the only use here). -/
def pyReplace (s old : PyStr) : PyStr :=
  replaceGo old 0 s

/-- `normalize_company_name` (src/cache/search_cache.py lines 13-30):
`if not company_name: return ""`, then `strip().upper()`, then remove all
occurrences of `" LIMITED"`, `" LTD"`, `" INCORPORATED"`, `" INC"` in that
order, then a final `strip()`. -/
def normalize_company_name (s : PyStr) : PyStr :=
  if s = [] then []
  else
    let n1 := pyUpper (pyStrip s)
    let n2 := pyReplace (pyReplace n1 (codes " LIMITED")) (codes " LTD")
    let n3 := pyReplace (pyReplace n2 (codes " INCORPORATED")) (codes " INC")
    pyStrip n3

/-! ## The TTL search cache (src/cache/search_cache.py) -/

/-- One company's cache entry: `{"timestamp": ..., "searches": {...}}`.
The ISO timestamp string is modelled as the integer write time. -/
structure CacheEntry where
  timestamp : Int
  searches : List (PyStr × PyStr)
deriving DecidableEq, Repr

/-- The `SearchCache` object state: the `enabled` flag, `ttl_hours`, and the
in-memory `_cache_data` dict. -/
structure SearchCache where
  enabled : Bool
  ttl : Int
  data : List (PyStr × CacheEntry)
deriving DecidableEq, Repr

/-- Python `d[k]` / `k in d` on a dict: first-occurrence lookup. -/
def assocLookup {α : Type} (k : PyStr) : List (PyStr × α) → Option α
  | [] => none
  | (k', v) :: l => if k' = k then some v else assocLookup k l

/-- Python `d[k] = v`: update the existing key in place, else append. -/
def assocSet {α : Type} (k : PyStr) (v : α) : List (PyStr × α) → List (PyStr × α)
  | [] => [(k, v)]
  | (k', v') :: l => if k' = k then (k, v) :: l else (k', v') :: assocSet k v l

/-- Python `del d[k]`: remove the key (dict keys are unique, so removing
every occurrence agrees with deleting the one binding). -/
def assocErase {α : Type} (k : PyStr) : List (PyStr × α) → List (PyStr × α)
  | [] => []
  | (k', v) :: l => if k' = k then assocErase k l else (k', v) :: assocErase k l

/-- `SearchCache._is_cache_valid`: the entry is valid when its age is
strictly less than the TTL (`age < timedelta(hours=self.ttl_hours)`). -/
def is_cache_valid (c : SearchCache) (timestamp now : Int) : Bool :=
  now - timestamp < c.ttl

/-- A modelled Python exception. -/
inductive PyError where
  | ioError
deriving DecidableEq, Repr

/-- The file write inside `_save_cache`: `diskFails` says whether the
attempt raises `IOError`. -/
def save_cache_attempt (diskFails : Bool) : Except PyError Unit :=
  if diskFails then Except.error PyError.ioError else Except.ok ()

/-- `SearchCache._save_cache` (lines 83-115): the write is wrapped in
`try/except IOError`, which only logs a warning — the method returns
normally either way and never touches `_cache_data`. -/
def save_cache (diskFails : Bool) (c : SearchCache) : Except PyError SearchCache :=
  match save_cache_attempt diskFails with
  | Except.error _ => Except.ok c
  | Except.ok _ => Except.ok c

/-- `SearchCache.get_cached_result` (lines 140-176).  Returns the optional
result together with the cache state after the call (the method deletes the
company's entry, and persists, when the entry has expired). -/
def get_cached_result (c : SearchCache) (now : Int) (company query : PyStr) :
    Option PyStr × SearchCache :=
  if c.enabled = false then (none, c)
  else
    let n := normalize_company_name company
    if n = [] then (none, c)
    else
      match assocLookup n c.data with
      | none => (none, c)
      | some e =>
        if is_cache_valid c e.timestamp now = false then
          (none, { c with data := assocErase n c.data })
        else
          (assocLookup query e.searches, c)

/-- `SearchCache.set_cached_result` (lines 178-208): create the entry if
absent, refresh its timestamp to `now`, store the query's result, then
`_save_cache` (whose `IOError` is caught, so the call never raises). -/
def set_cached_result (c : SearchCache) (now : Int) (company query result : PyStr)
    (diskFails : Bool) : Except PyError SearchCache :=
  if c.enabled = false then Except.ok c
  else
    let n := normalize_company_name company
    if n = [] then Except.ok c
    else
      let base := (assocLookup n c.data).getD { timestamp := now, searches := [] }
      let entry : CacheEntry := { timestamp := now, searches := assocSet query result base.searches }
      save_cache diskFails { c with data := assocSet n entry c.data }

/-- `SearchCache.get_all_cached_queries` (lines 228-251).  Returns the
query→result mapping together with the cache state after the call: the
method never assigns to `_cache_data`, so the state is returned unchanged
(in particular it does not delete an expired entry). -/
def get_all_cached_queries (c : SearchCache) (now : Int) (company : PyStr) :
    List (PyStr × PyStr) × SearchCache :=
  if c.enabled = false then ([], c)
  else
    let n := normalize_company_name company
    match assocLookup n c.data with
    | none => ([], c)
    | some e =>
      if is_cache_valid c e.timestamp now = false then ([], c)
      else (e.searches, c)

/-! ## Column selection and row emission (src/html_extractor.py) -/

/-- Python `list(range(a, b))`. -/
def pyRange (a b : Nat) : List Nat :=
  List.range' a (b - a)

/-- Python `l[-k:]` on a list: the last `k` elements — except that `l[-0:]`
is the whole list. -/
def pyTailSlice (k : Nat) (l : List Nat) : List Nat :=
  if k = 0 then l else l.drop (l.length - k)

/-- Ascending insertion, used to model Python `sorted`. -/
def insertSorted (a : Nat) : List Nat → List Nat
  | [] => [a]
  | b :: bs => if a ≤ b then a :: b :: bs else b :: insertSorted a bs

/-- Python `sorted` on naturals. -/
def sortNat (l : List Nat) : List Nat :=
  l.foldr insertSorted []

/-- Python `sorted(set(l))`: the distinct elements in ascending order. -/
def pySortedSet (l : List Nat) : List Nat :=
  sortNat l.dedup

/-- The quarters policy (line 99):
`columns_to_keep = [0] + list(range(max(1, len(ths) - max_quarters), len(ths)))`
where `total` is the number of header cells. -/
def quartersColumns (total max_quarters : Nat) : List Nat :=
  0 :: pyRange (max 1 (total - max_quarters)) total

/-- The TTM scan (lines 105-109): the first header index whose
`get_text(strip=True).upper()` equals `"TTM"`; headers are given as their
already-extracted stripped texts. -/
def ttmIndexOf (ths : List PyStr) : Option Nat :=
  ths.findIdx? (fun h => pyUpper h = codes "TTM")

/-- The years policy for profit-loss / balance-sheet / cash-flow / ratios
tables (lines 100-115): keep `[0]`, append the TTM index if found, extend
with `year_cols[-max_years:]` where `year_cols` are the non-zero non-TTM
indices, then `sorted(set(...))`.  (With no TTM column, Python's
`i != None` is always true.) -/
def ratiosColumns (ths : List PyStr) (max_years : Nat) : List Nat :=
  let ttmIdx := ttmIndexOf ths
  let base : List Nat :=
    match ttmIdx with
    | some t => [0, t]
    | none => [0]
  let yearCols := (pyRange 1 ths.length).filter (fun i =>
    match ttmIdx with
    | some t => decide (i ≠ t)
    | none => true)
  pySortedSet (base ++ pyTailSlice max_years yearCols)

/-- Row emission (lines 129-138): for each kept column index in range,
extract the cell text; `if not (aggressive and not cell_text)` emit the
cell, so in aggressive mode an empty cell is skipped outright.  Cells are
given as their already-extracted stripped texts. -/
def emitRow (aggressive : Bool) (cols : List Nat) (tds : List PyStr) : List PyStr :=
  cols.filterMap (fun i =>
    match tds[i]? with
    | none => none
    | some t => if aggressive = true ∧ t = [] then none else some t)

/-! ## Context-budget classification (src/analysis_service.py lines 181-197) -/

/-- The three classifications the pre-flight validation prints. -/
inductive ContextStatus where
  | over
  | near
  | within
deriving DecidableEq, Repr

/-- The classification in `perform_analysis`:
`if total_tokens > max_context` → over;
`elif total_tokens > max_context * 0.9` → near; `else` → within.
The factor `0.9` is modelled as the exact rational `9/10`; both token
counts are integers. -/
def classify (total ceiling : Nat) : ContextStatus :=
  if (total : ℚ) > (ceiling : ℚ) then ContextStatus.over
  else if (total : ℚ) > (ceiling : ℚ) * (9 / 10) then ContextStatus.near
  else ContextStatus.within

/-- The header texts of the C2 scenario table. -/
def ratiosHeaders : List PyStr :=
  [codes "Particulars", codes "TTM", codes "2020", codes "2021",
   codes "2022", codes "2023"]

/-- The entry `set_cached_result` stores for normalized key `n`: timestamp
refreshed to `now`, and `searches[query] = result` on top of the previous
searches (empty when the key was absent). -/
def updatedEntry (c : SearchCache) (now : Int) (n q r : PyStr) : CacheEntry where
  timestamp := now
  searches :=
    assocSet q r ((assocLookup n c.data).getD
      { timestamp := now, searches := [] }).searches

/-- The in-memory state after `set_cached_result` on an enabled cache with
a non-empty normalized key `n`. -/
def updatedState (c : SearchCache) (now : Int) (n q r : PyStr) : SearchCache :=
  { c with data := assocSet n (updatedEntry c now n q r) c.data }

/-- A fresh enabled cache with the default 24-hour TTL and no entries. -/
def emptyCache : SearchCache where
  enabled := true
  ttl := 24
  data := []

/-! ## Helper lemmas -/

theorem assocLookup_assocSet_self {α : Type} (k : PyStr) (v : α) (l : List (PyStr × α)) :
    assocLookup k (assocSet k v l) = some v := by
  induction l with
  | nil => simp [assocSet, assocLookup]
  | cons p l ih =>
    obtain ⟨k', v'⟩ := p
    by_cases h : k' = k <;> simp [assocSet, assocLookup, h, ih]

theorem assocLookup_assocErase_self {α : Type} (k : PyStr) (l : List (PyStr × α)) :
    assocLookup k (assocErase k l) = none := by
  induction l with
  | nil => simp [assocErase, assocLookup]
  | cons p l ih =>
    obtain ⟨k', v'⟩ := p
    by_cases h : k' = k <;> simp [assocErase, assocLookup, h, ih]

theorem mem_of_mem_replaceGo (old : PyStr) :
    ∀ (s : PyStr) (k a : Nat), a ∈ replaceGo old k s → a ∈ s := by
  intro s
  induction s with
  | nil => intro k a h; simp [replaceGo] at h
  | cons c cs ih =>
    intro k a h
    match k with
    | k' + 1 =>
      rw [replaceGo] at h
      exact List.mem_cons_of_mem c (ih k' a h)
    | 0 =>
      rw [replaceGo] at h
      split at h
      · exact List.mem_cons_of_mem c (ih _ a h)
      · rcases List.mem_cons.mp h with h1 | h2
        · exact h1 ▸ List.mem_cons_self c cs
        · exact List.mem_cons_of_mem c (ih 0 a h2)

theorem mem_of_mem_pyReplace (s old : PyStr) (a : Nat) (h : a ∈ pyReplace s old) : a ∈ s :=
  mem_of_mem_replaceGo old s 0 a h

theorem pyReplace_eq_self (s old : PyStr) (h : ¬ old <:+: s) : pyReplace s old = s := by
  unfold pyReplace
  induction s with
  | nil => rfl
  | cons c cs ih =>
    rw [replaceGo]
    rw [if_neg, ih (fun hi => h (List.infix_cons hi))]
    intro hp
    exact h (List.IsPrefix.isInfix ( List.isPrefixOf_iff_prefix.mp hp))

theorem dropWhile_dropWhile (p : Nat → Bool) (l : List Nat) :
    (l.dropWhile p).dropWhile p = l.dropWhile p := by
  induction l with
  | nil => rfl
  | cons a l ih => by_cases h : p a <;> simp [List.dropWhile_cons, h, ih]

theorem head_false_of_dropWhile (p : Nat → Bool) :
    ∀ (l : List Nat) (a : Nat) (r : List Nat), l.dropWhile p = a :: r → p a = false := by
  intro l
  induction l with
  | nil => intro a r h; simp at h
  | cons b l ih =>
    intro a r h
    by_cases hb : p b
    · rw [List.dropWhile_cons, if_pos hb] at h
      exact ih a r h
    · rw [List.dropWhile_cons, if_neg hb] at h
      cases h
      simpa using hb

theorem dropWhile_eq_self_of_head (p : Nat → Bool) (l : List Nat)
    (h : ∀ (a : Nat) (r : List Nat), l = a :: r → p a = false) : l.dropWhile p = l := by
  cases l with
  | nil => rfl
  | cons a r => rw [List.dropWhile_cons, if_neg (by simp [h a r rfl])]

theorem pyStrip_idem (s : PyStr) : pyStrip (pyStrip s) = pyStrip s := by
  unfold pyStrip
  set A := s.dropWhile isPySpace with hA
  set B := A.reverse.dropWhile isPySpace with hB
  have h1 : B.reverse.dropWhile isPySpace = B.reverse := by
    apply dropWhile_eq_self_of_head
    intro a r h
    have hsuf : B <:+ A.reverse := List.dropWhile_suffix isPySpace
    have hpre : B.reverse <+: A := by
      have h' := List.reverse_prefix.mpr hsuf
      rwa [List.reverse_reverse] at h'
    obtain ⟨t, ht⟩ := hpre
    rw [h] at ht
    exact head_false_of_dropWhile isPySpace s a (r ++ t) (by rw [← hA, ← ht]; rfl)
  rw [h1, List.reverse_reverse, hB, dropWhile_dropWhile]

theorem mem_of_mem_pyStrip (s : PyStr) (a : Nat) (h : a ∈ pyStrip s) : a ∈ s := by
  unfold pyStrip at h
  have h1 := List.mem_reverse.mp h
  have h2 := List.IsSuffix.subset (List.dropWhile_suffix isPySpace) h1
  have h3 := List.mem_reverse.mp h2
  exact List.IsSuffix.subset (List.dropWhile_suffix isPySpace) h3

theorem upperCode_idem (n : Nat) : upperCode (upperCode n) = upperCode n := by
  unfold upperCode
  split_ifs <;> omega

theorem pyUpper_eq_self (l : PyStr) (h : ∀ a ∈ l, upperCode a = a) : pyUpper l = l := by
  unfold pyUpper
  rw [List.map_congr_left h]
  simp

theorem upperCode_fixed_of_mem_normalize (s : PyStr) (a : Nat)
    (ha : a ∈ normalize_company_name s) : upperCode a = a := by
  by_cases hs : s = []
  · simp [normalize_company_name, hs] at ha
  · simp only [normalize_company_name, if_neg hs] at ha
    have h1 := mem_of_mem_pyStrip _ a ha
    have h2 := mem_of_mem_pyReplace _ _ a h1
    have h3 := mem_of_mem_pyReplace _ _ a h2
    have h4 := mem_of_mem_pyReplace _ _ a h3
    have h5 := mem_of_mem_pyReplace _ _ a h4
    obtain ⟨b, _, rfl⟩ := List.mem_map.mp h5
    exact upperCode_idem b

theorem pyStrip_normalize (s : PyStr) :
    pyStrip (normalize_company_name s) = normalize_company_name s := by
  by_cases hs : s = []
  · rw [hs]; rfl
  · simp only [normalize_company_name, if_neg hs, pyStrip_idem]

theorem classify_eq_natCompare (total ceiling : Nat) :
    classify total ceiling =
      (if ceiling < total then ContextStatus.over
       else if 9 * ceiling < 10 * total then ContextStatus.near
       else ContextStatus.within) := by
  unfold classify
  have h1 : ((ceiling : ℚ) < (total : ℚ)) ↔ ceiling < total := by exact_mod_cast Iff.rfl
  have h2 : ((ceiling : ℚ) * (9 / 10) < (total : ℚ)) ↔ 9 * ceiling < 10 * total := by
    constructor
    · intro h
      have h10 : (9 : ℚ) * ceiling < 10 * total := by linarith
      exact_mod_cast h10
    · intro h
      have h10 : (9 : ℚ) * ceiling < 10 * total := by exact_mod_cast h
      linarith
  simp only [gt_iff_lt, h1, h2]

/-! ## Claim theorems: budget classification -/

/-- Claim C5: for every total and ceiling, the classification is `over`
exactly when `total > ceiling`, `near` exactly when
`ceiling*0.9 < total <= ceiling`, and `within` otherwise (equivalently,
exactly when `total <= ceiling*0.9`). -/
theorem classify_thresholds_exact (total ceiling : Nat) :
    (classify total ceiling = ContextStatus.over ↔ ceiling < total) ∧
    (classify total ceiling = ContextStatus.near ↔
      (ceiling : ℚ) * (9 / 10) < (total : ℚ) ∧ total ≤ ceiling) ∧
    (classify total ceiling = ContextStatus.within ↔
      (total : ℚ) ≤ (ceiling : ℚ) * (9 / 10)) := by
  have h2 : ((ceiling : ℚ) * (9 / 10) < (total : ℚ)) ↔ 9 * ceiling < 10 * total := by
    constructor
    · intro h
      have h10 : (9 : ℚ) * ceiling < 10 * total := by linarith
      exact_mod_cast h10
    · intro h
      have h10 : (9 : ℚ) * ceiling < 10 * total := by exact_mod_cast h
      linarith
  have h3 : ((total : ℚ) ≤ (ceiling : ℚ) * (9 / 10)) ↔ 10 * total ≤ 9 * ceiling := by
    constructor
    · intro h
      have h10 : (10 : ℚ) * total ≤ 9 * ceiling := by linarith
      exact_mod_cast h10
    · intro h
      have h10 : (10 : ℚ) * total ≤ 9 * ceiling := by exact_mod_cast h
      linarith
  simp only [classify_eq_natCompare, h2, h3]
  split_ifs with hov hnr <;> refine ⟨?_, ?_, ?_⟩ <;> simp <;> omega

/-- Claim C1, counterexample: at `ceiling = 10`, classifying a total equal
to the ceiling yields `near`, not `within` as the claim states. -/
theorem classify_at_ceiling_counterexample :
    classify 10 10 = ContextStatus.near ∧ classify 10 10 ≠ ContextStatus.within := by
  rw [classify_eq_natCompare]
  decide

/-- Claim C1, amended: for every ceiling `c ≥ 1`, a total equal to the
ceiling classifies as `near` (not `within`); `c+1` classifies as `over`;
and `floor(c*0.9)+1` (that is, `9*c/10 + 1` in integer arithmetic)
classifies as `near`. -/
theorem classify_boundaries_amended (c : Nat) (h : 1 ≤ c) :
    classify c c = ContextStatus.near ∧
    classify (c + 1) c = ContextStatus.over ∧
    classify (9 * c / 10 + 1) c = ContextStatus.near := by
  refine ⟨?_, ?_, ?_⟩ <;> simp only [classify_eq_natCompare] <;>
    split_ifs <;> first | rfl | omega

/-- Claim C1, witness for the amended statement at `ceiling = 20`. -/
theorem classify_boundaries_amended_witness :
    1 ≤ 20 ∧
    (classify 20 20 = ContextStatus.near ∧
     classify (20 + 1) 20 = ContextStatus.over ∧
     classify (9 * 20 / 10 + 1) 20 = ContextStatus.near) :=
  ⟨by decide, classify_boundaries_amended 20 (by decide)⟩

/-! ## Claim theorems: column selection and row emission -/

/-- Claim C2, counterexample: on headers
`[Particulars, TTM, 2020, 2021, 2022, 2023]` with `max_years = 2` the kept
indices are not `{0,1,3,4}`; in particular index 3 (the year 2021) is
dropped. -/
theorem ratios_kept_counterexample :
    ratiosColumns ratiosHeaders 2 ≠ [0, 1, 3, 4] ∧
    3 ∉ ratiosColumns ratiosHeaders 2 := by
  decide

/-- Claim C2, amended: the kept indices are `{0,1,4,5}` — the row-label
column, TTM, and the last two years 2022 and 2023 (2020 and 2021 are both
dropped). -/
theorem ratios_kept_indices : ratiosColumns ratiosHeaders 2 = [0, 1, 4, 5] := by
  decide

/-- Claim C7: for a quarters-kind table with `total ≥ 1` columns and any
`max_quarters`, the selection contains index 0 followed by exactly
`min(total-1, max_quarters)` further indices, namely the contiguous tail
from `max(1, total - max_quarters)` to `total - 1`. -/
theorem quarters_selection_spec (total q : Nat) (h : 1 ≤ total) :
    0 ∈ quartersColumns total q ∧
    (quartersColumns total q).length = 1 + min (total - 1) q ∧
    quartersColumns total q =
      0 :: List.range' (max 1 (total - q)) (min (total - 1) q) ∧
    (∀ i, i ∈ (quartersColumns total q).tail ↔
      max 1 (total - q) ≤ i ∧ i ≤ total - 1) := by
  have hkey : total - max 1 (total - q) = min (total - 1) q := by omega
  unfold quartersColumns pyRange
  refine ⟨List.mem_cons_self 0 _, ?_, ?_, ?_⟩
  · simp only [List.length_cons, List.length_range']
    omega
  · rw [hkey]
  · intro i
    simp only [List.tail_cons, List.mem_range'_1]
    omega

/-- Claim C7, witness at a 6-column table with `max_quarters = 8`. -/
theorem quarters_selection_spec_witness :
    1 ≤ 6 ∧
    (0 ∈ quartersColumns 6 8 ∧
     (quartersColumns 6 8).length = 1 + min (6 - 1) 8 ∧
     quartersColumns 6 8 = 0 :: List.range' (max 1 (6 - 8)) (min (6 - 1) 8) ∧
     (∀ i, i ∈ (quartersColumns 6 8).tail ↔ max 1 (6 - 8) ≤ i ∧ i ≤ 6 - 1)) :=
  ⟨by decide, quarters_selection_spec 6 8 (by decide)⟩

/-- Claim C8: in aggressive mode the emitted row is the non-aggressive row
with every empty cell removed (no placeholder is ever emitted: no empty
cell occurs in the output), and the row `[Sales, "", 120]` with all three
columns kept is emitted as `[Sales, 120]`. -/
theorem emitRow_false_eq (tds : List PyStr) (cols : List Nat) :
    emitRow false cols tds = cols.filterMap (fun i => tds[i]?) := by
  unfold emitRow
  apply List.filterMap_congr
  intro i _
  cases tds[i]? with
  | none => rfl
  | some t => simp

theorem emitRow_true_eq (tds : List PyStr) (cols : List Nat) :
    emitRow true cols tds =
      (cols.filterMap (fun i => tds[i]?)).filter (fun t => decide (t ≠ [])) := by
  rw [List.filter_filterMap]
  unfold emitRow
  apply List.filterMap_congr
  intro i _
  cases tds[i]? with
  | none => rfl
  | some t => by_cases ht : t = [] <;> simp [Option.filter, ht]

theorem aggressive_empty_cell_omitted :
    (∀ (cols : List Nat) (tds : List PyStr),
      emitRow true cols tds =
        (emitRow false cols tds).filter (fun t => decide (t ≠ []))) ∧
    (∀ (cols : List Nat) (tds : List PyStr), [] ∉ emitRow true cols tds) ∧
    emitRow true [0, 1, 2] [codes "Sales", [], codes "120"] =
      [codes "Sales", codes "120"] := by
  have hchar : ∀ (cols : List Nat) (tds : List PyStr),
      emitRow true cols tds =
        (emitRow false cols tds).filter (fun t => decide (t ≠ [])) := by
    intro cols tds
    rw [emitRow_true_eq, emitRow_false_eq]
  refine ⟨hchar, ?_, by decide⟩
  intro cols tds hmem
  rw [hchar] at hmem
  have h2 := (List.mem_filter.mp hmem).2
  simp at h2

/-! ## Claim theorems: name normalization -/

/-- Claim C3, counterexample: normalization is not idempotent.  On
`"A LT INCD"`, deleting `" INC"` glues `"A LT"` and `"D"` into `"A LTD"`,
which a second normalization reduces further to `"A"`. -/
theorem normalize_not_idempotent_counterexample :
    normalize_company_name (codes "A LT INCD") = codes "A LTD" ∧
    normalize_company_name (codes "A LTD") = codes "A" ∧
    normalize_company_name (normalize_company_name (codes "A LT INCD")) ≠
      normalize_company_name (codes "A LT INCD") := by
  decide

/-- Claim C3, amended: normalization is idempotent on every input whose
normalized form contains none of the four suffix substrings `" LIMITED"`,
`" LTD"`, `" INCORPORATED"`, `" INC"` (a replacement can splice such a
substring together out of surrounding text, as the counterexample shows,
so the unconditional claim fails). -/
theorem normalize_idempotent_amended (s : PyStr)
    (h1 : ¬ codes " LIMITED" <:+: normalize_company_name s)
    (h2 : ¬ codes " LTD" <:+: normalize_company_name s)
    (h3 : ¬ codes " INCORPORATED" <:+: normalize_company_name s)
    (h4 : ¬ codes " INC" <:+: normalize_company_name s) :
    normalize_company_name (normalize_company_name s) = normalize_company_name s := by
  by_cases hy : normalize_company_name s = []
  · rw [hy]; rfl
  · have hfix : ∀ a ∈ normalize_company_name s, upperCode a = a :=
      fun a ha => upperCode_fixed_of_mem_normalize s a ha
    set y := normalize_company_name s with hy_def
    have hstrip : pyStrip y = y := by rw [hy_def]; exact pyStrip_normalize s
    unfold normalize_company_name
    rw [if_neg hy]
    show pyStrip (pyReplace (pyReplace (pyReplace (pyReplace
      (pyUpper (pyStrip y)) (codes " LIMITED")) (codes " LTD"))
      (codes " INCORPORATED")) (codes " INC")) = y
    rw [hstrip, pyUpper_eq_self y hfix, pyReplace_eq_self y _ h1,
      pyReplace_eq_self y _ h2, pyReplace_eq_self y _ h3,
      pyReplace_eq_self y _ h4, hstrip]

/-- Claim C3, witness for the amended statement at `"  Acme corp Ltd "`,
whose normalized form `"ACME CORP"` contains no suffix token. -/
theorem normalize_idempotent_amended_witness :
    (¬ codes " LIMITED" <:+: normalize_company_name (codes "  Acme corp Ltd ") ∧
     ¬ codes " LTD" <:+: normalize_company_name (codes "  Acme corp Ltd ") ∧
     ¬ codes " INCORPORATED" <:+: normalize_company_name (codes "  Acme corp Ltd ") ∧
     ¬ codes " INC" <:+: normalize_company_name (codes "  Acme corp Ltd ")) ∧
    normalize_company_name (normalize_company_name (codes "  Acme corp Ltd ")) =
      normalize_company_name (codes "  Acme corp Ltd ") :=
  ⟨⟨by decide, by decide, by decide, by decide⟩,
   normalize_idempotent_amended (codes "  Acme corp Ltd ")
     (by decide) (by decide) (by decide) (by decide)⟩

/-! ## Claim theorems: the TTL cache -/

theorem set_cached_result_eq (c : SearchCache) (now : Int) (id q r : PyStr) (df : Bool)
    (hE : c.enabled = true) (hN : normalize_company_name id ≠ []) :
    set_cached_result c now id q r df =
      Except.ok (updatedState c now (normalize_company_name id) q r) := by
  unfold set_cached_result updatedState updatedEntry save_cache save_cache_attempt
  cases df <;> simp [hE, hN]

theorem get_fresh_entry (c : SearchCache) (now : Int) (id q : PyStr) (e : CacheEntry)
    (hE : c.enabled = true) (hN : normalize_company_name id ≠ [])
    (hfound : assocLookup (normalize_company_name id) c.data = some e)
    (hvalid : is_cache_valid c e.timestamp now = true) :
    get_cached_result c now id q = (assocLookup q e.searches, c) := by
  unfold get_cached_result
  simp [hE, hN, hfound, hvalid]

theorem get_expired_entry (c : SearchCache) (now : Int) (id q : PyStr) (e : CacheEntry)
    (hE : c.enabled = true) (hN : normalize_company_name id ≠ [])
    (hfound : assocLookup (normalize_company_name id) c.data = some e)
    (hexp : is_cache_valid c e.timestamp now = false) :
    get_cached_result c now id q =
      (none, { c with data := assocErase (normalize_company_name id) c.data }) := by
  unfold get_cached_result
  simp [hE, hN, hfound, hexp]

/-- Claim C4, counterexample: on a cache holding one entry whose timestamp
has aged past the TTL, `get_all_cached_queries` returns the empty mapping
but does not remove the expired entry: the state after the read still
contains it, contradicting the claim that both read operations remove it. -/
theorem get_all_expiry_counterexample :
    (get_all_cached_queries
      { enabled := true, ttl := 24,
        data := [(codes "ACME",
          { timestamp := 0, searches := [(codes "q", codes "r")] })] }
      100 (codes "ACME")).1 = [] ∧
    (get_all_cached_queries
      { enabled := true, ttl := 24,
        data := [(codes "ACME",
          { timestamp := 0, searches := [(codes "q", codes "r")] })] }
      100 (codes "ACME")).2 =
      { enabled := true, ttl := 24,
        data := [(codes "ACME",
          { timestamp := 0, searches := [(codes "q", codes "r")] })] } ∧
    assocLookup (codes "ACME")
      (get_all_cached_queries
        { enabled := true, ttl := 24,
          data := [(codes "ACME",
            { timestamp := 0, searches := [(codes "q", codes "r")] })] }
        100 (codes "ACME")).2.data ≠ none := by
  decide

/-- Claim C4, amended: on an enabled cache, for an expired entry under a
non-empty normalized identifier, `get_cached_result` returns a miss and
removes the entry from the state before returning, while
`get_all_cached_queries` returns the empty mapping but leaves the state
unchanged (the expired entry is not removed by it). -/
theorem expired_entry_read_behavior (c : SearchCache) (now : Int) (id q : PyStr)
    (e : CacheEntry)
    (hE : c.enabled = true)
    (hN : normalize_company_name id ≠ [])
    (hfound : assocLookup (normalize_company_name id) c.data = some e)
    (hexp : is_cache_valid c e.timestamp now = false) :
    get_cached_result c now id q =
      (none, { c with data := assocErase (normalize_company_name id) c.data }) ∧
    assocLookup (normalize_company_name id)
      (get_cached_result c now id q).2.data = none ∧
    get_all_cached_queries c now id = ([], c) := by
  have hg := get_expired_entry c now id q e hE hN hfound hexp
  refine ⟨hg, ?_, ?_⟩
  · rw [hg]
    exact assocLookup_assocErase_self _ _
  · unfold get_all_cached_queries
    simp [hE, hfound, hexp]

/-- Claim C4, witness for the amended statement on a concrete one-entry
expired cache. -/
theorem expired_entry_read_behavior_witness :
    (SearchCache.enabled
       { enabled := true, ttl := 24,
         data := [(codes "ACME",
           { timestamp := 0, searches := [(codes "q", codes "r")] })] } = true ∧
     normalize_company_name (codes "ACME") ≠ [] ∧
     assocLookup (normalize_company_name (codes "ACME"))
       (SearchCache.data
         { enabled := true, ttl := 24,
           data := [(codes "ACME",
             { timestamp := 0, searches := [(codes "q", codes "r")] })] }) =
       some { timestamp := 0, searches := [(codes "q", codes "r")] } ∧
     is_cache_valid
       { enabled := true, ttl := 24,
         data := [(codes "ACME",
           { timestamp := 0, searches := [(codes "q", codes "r")] })] }
       0 100 = false) ∧
    (get_cached_result
       { enabled := true, ttl := 24,
         data := [(codes "ACME",
           { timestamp := 0, searches := [(codes "q", codes "r")] })] }
       100 (codes "ACME") (codes "q") =
       (none,
        { enabled := true, ttl := 24,
          data := assocErase (normalize_company_name (codes "ACME"))
            [(codes "ACME",
              { timestamp := 0, searches := [(codes "q", codes "r")] })] }) ∧
     assocLookup (normalize_company_name (codes "ACME"))
       (get_cached_result
         { enabled := true, ttl := 24,
           data := [(codes "ACME",
             { timestamp := 0, searches := [(codes "q", codes "r")] })] }
         100 (codes "ACME") (codes "q")).2.data = none ∧
     get_all_cached_queries
       { enabled := true, ttl := 24,
         data := [(codes "ACME",
           { timestamp := 0, searches := [(codes "q", codes "r")] })] }
       100 (codes "ACME") =
       ([], { enabled := true, ttl := 24,
              data := [(codes "ACME",
                { timestamp := 0, searches := [(codes "q", codes "r")] })] })) :=
  ⟨⟨rfl, by decide, by decide, by decide⟩,
   expired_entry_read_behavior
     { enabled := true, ttl := 24,
       data := [(codes "ACME",
         { timestamp := 0, searches := [(codes "q", codes "r")] })] }
     100 (codes "ACME") (codes "q")
     { timestamp := 0, searches := [(codes "q", codes "r")] }
     rfl (by decide) (by decide) (by decide)⟩

/-- Claim C6, counterexample: the round-trip fails for an identifier whose
normalized form is empty.  On a fresh enabled cache, `put` with the
whitespace identifier `"   "` is a no-op and the immediate `get` returns a
miss instead of the stored result. -/
theorem cache_roundtrip_counterexample :
    set_cached_result emptyCache 0 (codes "   ") (codes "Q") (codes "R") false =
      Except.ok emptyCache ∧
    (get_cached_result emptyCache 0 (codes "   ") (codes "Q")).1 = none := by
  constructor
  · rfl
  · rfl

/-- Claim C6, amended: on an enabled cache with positive TTL and an
identifier whose normalized form is non-empty, `put(id, q, r)` followed
immediately by `get(id, q)` returns `r`; and once the entry has aged to at
least the TTL, `get(id, q)` returns a miss and a subsequent
`get_all(id)` on the resulting state returns the empty mapping. -/
theorem cache_roundtrip_and_expiry (c : SearchCache) (now now' : Int)
    (id q r : PyStr) (df : Bool)
    (hE : c.enabled = true) (hN : normalize_company_name id ≠ [])
    (hT : 0 < c.ttl) (hAge : c.ttl ≤ now' - now) :
    ∃ c', set_cached_result c now id q r df = Except.ok c' ∧
      (get_cached_result c' now id q).1 = some r ∧
      (get_cached_result c' now' id q).1 = none ∧
      (get_all_cached_queries (get_cached_result c' now' id q).2 now' id).1 = [] := by
  refine ⟨_, set_cached_result_eq c now id q r df hE hN, ?_, ?_, ?_⟩
  · have h1 := get_fresh_entry (updatedState c now (normalize_company_name id) q r)
      now id q (updatedEntry c now (normalize_company_name id) q r) hE hN
      (assocLookup_assocSet_self _ _ _)
      (by simp [is_cache_valid, updatedState, updatedEntry]; omega)
    rw [h1]
    simp only [updatedEntry]
    exact assocLookup_assocSet_self _ _ _
  · have h2 := get_expired_entry (updatedState c now (normalize_company_name id) q r)
      now' id q (updatedEntry c now (normalize_company_name id) q r) hE hN
      (assocLookup_assocSet_self _ _ _)
      (by simp [is_cache_valid, updatedState, updatedEntry]; omega)
    rw [h2]
  · have h2 := get_expired_entry (updatedState c now (normalize_company_name id) q r)
      now' id q (updatedEntry c now (normalize_company_name id) q r) hE hN
      (assocLookup_assocSet_self _ _ _)
      (by simp [is_cache_valid, updatedState, updatedEntry]; omega)
    rw [h2]
    have h3 : assocLookup (normalize_company_name id)
        (assocErase (normalize_company_name id)
          (updatedState c now (normalize_company_name id) q r).data) = none :=
      assocLookup_assocErase_self _ _
    unfold get_all_cached_queries
    simp [hE, h3]

/-- Claim C6, witness for the amended statement: store under `"ACME"` at
time 0 on a fresh 24-hour cache, read back at time 0, then read at
time 100. -/
theorem cache_roundtrip_and_expiry_witness :
    (emptyCache.enabled = true ∧ normalize_company_name (codes "ACME") ≠ [] ∧
     (0 : Int) < emptyCache.ttl ∧ emptyCache.ttl ≤ 100 - 0) ∧
    (∃ c', set_cached_result emptyCache 0 (codes "ACME") (codes "Q") (codes "R")
        false = Except.ok c' ∧
      (get_cached_result c' 0 (codes "ACME") (codes "Q")).1 = some (codes "R") ∧
      (get_cached_result c' 100 (codes "ACME") (codes "Q")).1 = none ∧
      (get_all_cached_queries
        (get_cached_result c' 100 (codes "ACME") (codes "Q")).2
        100 (codes "ACME")).1 = []) :=
  ⟨⟨rfl, by decide, by decide, by decide⟩,
   cache_roundtrip_and_expiry emptyCache 0 100 (codes "ACME") (codes "Q")
     (codes "R") false rfl (by decide) (by decide) (by decide)⟩

/-- Claim C9: when persisting to disk fails, a cache put raises no
exception (the `IOError` is swallowed inside `_save_cache`) and the
in-memory state returned still contains the newly stored query→result pair
under the normalized identifier. -/
theorem set_disk_failure_preserves_memory (c : SearchCache) (now : Int)
    (id q r : PyStr)
    (hE : c.enabled = true) (hN : normalize_company_name id ≠ []) :
    ∃ c', set_cached_result c now id q r true = Except.ok c' ∧
      ∃ e, assocLookup (normalize_company_name id) c'.data = some e ∧
        assocLookup q e.searches = some r := by
  refine ⟨_, set_cached_result_eq c now id q r true hE hN,
    updatedEntry c now (normalize_company_name id) q r, ?_, ?_⟩
  · exact assocLookup_assocSet_self _ _ _
  · simp only [updatedEntry]
    exact assocLookup_assocSet_self _ _ _

/-- Claim C9, witness: a failing write on a fresh enabled cache. -/
theorem set_disk_failure_preserves_memory_witness :
    (emptyCache.enabled = true ∧ normalize_company_name (codes "ACME") ≠ []) ∧
    (∃ c', set_cached_result emptyCache 7 (codes "ACME") (codes "Q") (codes "R")
        true = Except.ok c' ∧
      ∃ e, assocLookup (normalize_company_name (codes "ACME")) c'.data = some e ∧
        assocLookup (codes "Q") e.searches = some (codes "R")) :=
  ⟨⟨rfl, by decide⟩,
   set_disk_failure_preserves_memory emptyCache 7 (codes "ACME") (codes "Q")
     (codes "R") rfl (by decide)⟩

/-- Claim C10: for an identifier whose normalized form is empty,
`get_cached_result` returns a miss with the state unchanged, and
`set_cached_result` is a silent no-op returning the unchanged state, for
every query, result, and disk outcome. -/
theorem empty_normalized_identifier_noop (c : SearchCache) (now : Int)
    (id q r : PyStr) (df : Bool)
    (h : normalize_company_name id = []) :
    get_cached_result c now id q = (none, c) ∧
    set_cached_result c now id q r df = Except.ok c := by
  constructor
  · unfold get_cached_result
    cases hE : c.enabled
    · simp
    · simp [h]
  · unfold set_cached_result
    cases hE : c.enabled
    · simp
    · simp [h]

/-- Claim C10, witness at the whitespace-only identifier `"   "`. -/
theorem empty_normalized_identifier_noop_witness :
    normalize_company_name (codes "   ") = [] ∧
    (get_cached_result emptyCache 5 (codes "   ") (codes "Q") = (none, emptyCache) ∧
     set_cached_result emptyCache 5 (codes "   ") (codes "Q") (codes "R") true =
       Except.ok emptyCache) :=
  ⟨by decide,
   empty_normalized_identifier_noop emptyCache 5 (codes "   ") (codes "Q")
     (codes "R") true (by decide)⟩
